import Mathlib

/-!
Verification of the retrieval-augmented QA core of the RoadLaw assistant
(`src/main.py`).  The Python code is shallowly embedded: Python strings are
Lean `String`s and their operations (`lower`, `strip`, `split`, substring
`in`) are modelled charwise over `String.data`; Python floats are modelled
as exact rationals `ℚ`; the Chroma semantic backend and the OpenAI
generative backend are modelled by their observable outcomes (a response
value, an error, or absence), since both live outside the repository; the
module-level cache dictionary and hit/miss counters are modelled as an
explicit state record threaded through `ask_question`.
-/

/-- Model of Python `needle` matching at the front of `haystack`. -/
def matchesAt : List Char → List Char → Bool
  | [], _ => true
  | _ :: _, [] => false
  | a :: as, b :: bs => a == b && matchesAt as bs

/-- Model of Python substring containment over char lists. -/
def containsSub (needle : List Char) : List Char → Bool
  | [] => needle.isEmpty
  | b :: bs => matchesAt needle (b :: bs) || containsSub needle bs

/-- Model of Python `needle in haystack` for strings (substring test). -/
def pyIn (needle haystack : String) : Bool :=
  containsSub needle.data haystack.data

/-- Model of Python `str.lower()` (charwise lowercasing). -/
def pyLower (s : String) : String :=
  ⟨s.data.map Char.toLower⟩

/-- Model of Python `str.strip()`: drop leading and trailing whitespace. -/
def pyStrip (s : String) : String :=
  ⟨((s.data.dropWhile Char.isWhitespace).reverse.dropWhile Char.isWhitespace).reverse⟩

/-- Model of Python `str.split()` with no argument: split on whitespace
runs, discarding empty tokens. -/
def pySplit (s : String) : List String :=
  ((List.splitOnP Char.isWhitespace s.data).filter (fun w => !w.isEmpty)).map
    (fun w => ⟨w⟩)

/-- A rule record from `data/pdd_sample.json` as consumed by `main.py`
(`PDD_DATA` entries).  The Python code reads the fields with `.get` and
defaults; the model assumes every field is present, which is how the
sample corpus is shaped. -/
structure RuleDocument where
  id : String
  «section» : String
  title : String
  content : String
  keywords : List String

/-- One entry of the `results` list built by the search functions in
`main.py`: `{'rule': rule, 'relevance': r}`. -/
structure ScoredMatch where
  rule : RuleDocument
  relevance : ℚ

/-- One entry of the `sources` list of an `Answer` in `main.py`. -/
structure SourceEntry where
  «section» : String
  id : String
  title : String
  relevance : ℚ

/-- The `Answer` pydantic model of `main.py`. -/
structure Answer where
  answer : String
  sources : List SourceEntry
  confidence : ℚ

/-- The per-rule relevance accumulation inside `simple_search`
(`main.py` lines 144-153): 0.3 per matching keyword, a flat 0.5 if any
title token occurs in the question, a flat 0.2 if any content token
occurs in the question. -/
def scoreRule (q_lower : String) (rule : RuleDocument) : ℚ :=
  let title := pyLower rule.title
  let content := pyLower rule.content
  let r0 : ℚ :=
    rule.keywords.foldl (fun acc kw => if pyIn (pyLower kw) q_lower then acc + 3/10 else acc) 0
  let r1 : ℚ := if (pySplit title).any (fun w => pyIn w q_lower) then r0 + 1/2 else r0
  let r2 : ℚ := if (pySplit content).any (fun w => pyIn w q_lower) then r1 + 1/5 else r1
  r2

/-- The `results` list of `simple_search` before sorting
(`main.py` lines 136-159): rules with positive relevance, clamped by
`min(relevance, 1.0)`, in corpus order. -/
def lexResults (pdd : List RuleDocument) (question : String) : List ScoredMatch :=
  let q_lower := pyLower question
  pdd.filterMap (fun rule =>
    let relevance := scoreRule q_lower rule
    if relevance > 0 then some { rule := rule, relevance := min relevance 1 } else none)

/-- Stable insertion of a match into a descending-sorted list: the new
element goes before the first element whose relevance is not strictly
greater.  Used by `sortDesc` below. -/
def insertDesc (x : ScoredMatch) : List ScoredMatch → List ScoredMatch
  | [] => [x]
  | y :: ys => if y.relevance > x.relevance then y :: insertDesc x ys else x :: y :: ys

/-- Model of Python `sorted(results, key=lambda x: x['relevance'],
reverse=True)` (`main.py` line 162): a stable sort by relevance
descending, so ties keep their original (corpus) order. -/
def sortDesc : List ScoredMatch → List ScoredMatch
  | [] => []
  | x :: xs => insertDesc x (sortDesc xs)

/-- `simple_search` of `main.py` (lines 131-163). -/
def simple_search (pdd : List RuleDocument) (question : String) (n_results : Nat) :
    List ScoredMatch :=
  (sortDesc (lexResults pdd question)).take n_results

/-- The observable reply of the Chroma backend inside `chroma_search`:
`docs` models `query_results['documents'][0]` (empty when `'documents'`
is missing, empty or `[[]]`), `dists` models `query_results['distances'][0]`
when `'distances'` is truthy and `none` when it is falsy. -/
structure ChromaResponse where
  docs : List String
  dists : Option (List ℚ)

/-- Outcome of the semantic stage: the module-level `client` is `None`
(`unavailable`), the backend call raised (`backendError`), or it
returned a reply. -/
inductive ChromaOutcome where
  | unavailable : ChromaOutcome
  | backendError : ChromaOutcome
  | ok : ChromaResponse → ChromaOutcome

/-- The inner rule lookup of `chroma_search` (`main.py` lines 181-188):
the first corpus rule whose content or title is a substring of the
returned document text. -/
def findRule (pdd : List RuleDocument) (doc : String) : Option RuleDocument :=
  pdd.find? (fun rule => pyIn rule.content doc || pyIn rule.title doc)

/-- The enumeration loop of `chroma_search` (`main.py` lines 179-188).
`none` models an uncaught `IndexError` from
`query_results['distances'][0][i]` (swallowed by the enclosing `except`,
which then returns `[]`).  A missing distances list (`dists = none`,
Python falsy) defaults each distance to `1.0`. -/
def chromaLoop (pdd : List RuleDocument) (dists : Option (List ℚ)) :
    List String → Nat → Option (List ScoredMatch)
  | [], _ => some []
  | doc :: rest, i =>
    match findRule pdd doc with
    | none => chromaLoop pdd dists rest (i + 1)
    | some rule =>
      let d? : Option ℚ :=
        match dists with
        | none => some 1
        | some l => l.get? i
      match d? with
      | none => none
      | some d =>
        match chromaLoop pdd dists rest (i + 1) with
        | none => none
        | some tail => some ({ rule := rule, relevance := 1 - min d 1 } :: tail)

/-- `chroma_search` of `main.py` (lines 165-193).  The `n_results`
argument is only forwarded to the backend query, whose reply the
`outcome` already models; any backend error yields `[]`. -/
def chroma_search (pdd : List RuleDocument) (outcome : ChromaOutcome)
    (n_results : Nat) : List ScoredMatch :=
  match outcome with
  | ChromaOutcome.unavailable => []
  | ChromaOutcome.backendError => []
  | ChromaOutcome.ok resp => (chromaLoop pdd resp.dists resp.docs 0).getD []

/-- `search_pdd` of `main.py` (lines 195-204): try Chroma first, fall
back to `simple_search` when Chroma is unavailable or returned nothing. -/
def search_pdd (pdd : List RuleDocument) (chromaAvailable : Bool)
    (outcome : ChromaOutcome) (question : String) (n_results : Nat) :
    List ScoredMatch :=
  if chromaAvailable then
    let results := chroma_search pdd outcome n_results
    if results.isEmpty then simple_search pdd question n_results else results
  else simple_search pdd question n_results

/-- Model of `hashlib.md5(...).hexdigest()` in `get_cache_key`.  Only key
equality matters for the claims, and md5 is deterministic, so the digest
is modelled as the identity on the normalized question. -/
def md5Hex (s : String) : String := s

/-- `get_cache_key` of `main.py` (lines 99-101): hash of
`question.lower().strip()`. -/
def get_cache_key (question : String) : String :=
  md5Hex (pyStrip (pyLower question))

/-- The module-level mutable state of `main.py`: `answer_cache` (a dict,
modelled as an association list), `cache_hits` and `cache_misses`. -/
structure CacheState where
  answer_cache : List (String × Answer)
  cache_hits : Nat
  cache_misses : Nat

/-- Dictionary lookup `cache_key in answer_cache` / `answer_cache[cache_key]`. -/
def cacheLookup (cache : List (String × Answer)) (key : String) : Option Answer :=
  match cache with
  | [] => none
  | (k, v) :: rest => if k = key then some v else cacheLookup rest key

/-- Dictionary assignment `answer_cache[cache_key] = result`. -/
def cacheInsert (cache : List (String × Answer)) (key : String) (v : Answer) :
    List (String × Answer) :=
  match cache with
  | [] => [(key, v)]
  | (k, w) :: rest =>
    if k = key then (k, v) :: rest else (k, w) :: cacheInsert rest key v

/-- The `HTTPException(status_code=400, ...)` raised by `ask_question`
for invalid input. -/
inductive AskError where
  | invalidInput : String → AskError

/-- The external collaborators of one `ask_question` call: whether the
`chromadb` import succeeded (`CHROMA_AVAILABLE`), the semantic backend
outcome, and the generative outcome (`some a`: OpenAI returned content
`a`; `none`: no configured client, an exception, or null content). -/
structure AskEnv where
  chromaAvailable : Bool
  chromaOutcome : ChromaOutcome
  openaiAnswer : Option String

/-- The fixed not-found answer text of `main.py` (line 272). -/
def notFoundText : String :=
  "В базе данных нет информации по этому вопросу. Пожалуйста, уточните вопрос или обратитесь к официальным источникам ПДД."

/-- The not-found `Answer` built by `ask_question` when retrieval returns
nothing (lines 271-275). -/
def notFoundAnswer : Answer :=
  { answer := notFoundText, sources := [], confidence := 0 }

/-- The deterministic extractive fallback answer (line 332). -/
def fallbackAnswerText (context_parts : List String) : String :=
  "Найдено в ПДД РК:\n\n" ++ String.intercalate "\n" context_parts

/-- The answer-composition block of `ask_question` (`main.py` lines
279-341): sources and context in match order, the generative answer when
one was produced and non-empty (Python `if not answer`), otherwise the
extractive fallback, and `confidence = min(total_relevance /
len(search_results), 1.0)` (`0.0` for no results). -/
def composeAnswer (openaiAnswer : Option String)
    (search_results : List ScoredMatch) : Answer :=
  let sources := search_results.map (fun r =>
    { «section» := r.rule.«section», id := r.rule.id, title := r.rule.title,
      relevance := r.relevance : SourceEntry })
  let context_parts := search_results.map (fun r => r.rule.title ++ ": " ++ r.rule.content)
  let total_relevance := (search_results.map (fun r => r.relevance)).sum
  let answer :=
    match openaiAnswer with
    | some a => if a = "" then fallbackAnswerText context_parts else a
    | none => fallbackAnswerText context_parts
  let confidence : ℚ :=
    if search_results.isEmpty then 0
    else min (total_relevance / (search_results.length : ℚ)) 1
  { answer := answer, sources := sources, confidence := confidence }

/-- `ask_question` of `main.py` (lines 244-350): validate, consult the
cache, search, compose, store.  Returns the HTTP-level result together
with the new module state. -/
def ask_question (pdd : List RuleDocument) (env : AskEnv) (st : CacheState)
    (raw_question : String) : Except AskError Answer × CacheState :=
  let question := pyStrip raw_question
  if question = "" then
    (Except.error (AskError.invalidInput "Question cannot be empty"), st)
  else if question.length > 500 then
    (Except.error (AskError.invalidInput "Question too long (max 500 chars)"), st)
  else
    let cache_key := get_cache_key question
    match cacheLookup st.answer_cache cache_key with
    | some cached => (Except.ok cached, { st with cache_hits := st.cache_hits + 1 })
    | none =>
      let st1 : CacheState := { st with cache_misses := st.cache_misses + 1 }
      let search_results := search_pdd pdd env.chromaAvailable env.chromaOutcome question 3
      if search_results.isEmpty then
        (Except.ok notFoundAnswer,
         { st1 with answer_cache := cacheInsert st1.answer_cache cache_key notFoundAnswer })
      else
        let result := composeAnswer env.openaiAnswer search_results
        (Except.ok result,
         { st1 with answer_cache := cacheInsert st1.answer_cache cache_key result })

/-- The Relevance Scorer exactly as §4.1 of the spec words it: 0.3 per
matching lowercased keyword (substring test against the lowercased
question), a single flat 0.5 if any lowercased title token occurs in the
question, a single flat 0.2 likewise for content tokens, clamped to at
most 1.0. -/
def specScore (question : String) (doc : RuleDocument) : ℚ :=
  let q := pyLower question
  min (3/10 * ((doc.keywords.filter (fun kw => pyIn (pyLower kw) q)).length : ℚ)
      + (if (pySplit (pyLower doc.title)).any (fun w => pyIn w q) then (1 : ℚ)/2 else 0)
      + (if (pySplit (pyLower doc.content)).any (fun w => pyIn w q) then (1 : ℚ)/5 else 0)) 1

/-- A semantic-stage outcome whose distance list (when present) is
nonnegative; real vector distances are nonnegative, but nothing in
`chroma_search` enforces this. -/
def distsNonneg : ChromaOutcome → Prop
  | ChromaOutcome.ok resp =>
    match resp.dists with
    | some l => ∀ d ∈ l, 0 ≤ d
    | none => True
  | _ => True

/-- Concrete corpus rule used by several concrete instantiations below. -/
def cexRuleA : RuleDocument :=
  { id := "1", «section» := "s1", title := "tA", content := "aaa", keywords := [] }

/-- Second concrete corpus rule. -/
def cexRuleB : RuleDocument :=
  { id := "2", «section» := "s2", title := "tB", content := "bbb", keywords := [] }

/-- A backend reply whose second document is much closer than its first:
distances 0.9 then 0.1. -/
def cexResp : ChromaResponse :=
  { docs := ["aaa", "bbb"], dists := some [9/10, 1/10] }

/-- Concrete rule with one keyword, used to instantiate the scorer claims. -/
def wDoc : RuleDocument :=
  { id := "13.7", «section» := "13", title := "zzz", content := "yyy", keywords := ["krug"] }

/-- The initial module state: empty cache, zero counters. -/
def emptyState : CacheState := { answer_cache := [], cache_hits := 0, cache_misses := 0 }

/-- An environment with no semantic and no generative backend. -/
def noChromaEnv : AskEnv :=
  { chromaAvailable := false, chromaOutcome := ChromaOutcome.unavailable, openaiAnswer := none }

/-- Concrete rule matched by the semantic replies below. -/
def negRule : RuleDocument :=
  { id := "9", «section» := "s9", title := "tt", content := "alpha", keywords := [] }

/-- A backend reply with a negative distance. -/
def negResp : ChromaResponse := { docs := ["alpha"], dists := some [-1] }

/-- A backend reply with an ordinary distance of 0.5. -/
def halfResp : ChromaResponse := { docs := ["alpha"], dists := some [1/2] }

/-- A 504-character raw question whose trimmed form is the 2-character
string "hi". -/
def longRaw : String :=
  ⟨List.replicate 251 ' ' ++ ('h' :: 'i' :: List.replicate 251 ' ')⟩

/-- Concrete rule for the zero-relevance semantic scenario. -/
def farRule : RuleDocument :=
  { id := "7", «section» := "s7", title := "tf", content := "beta", keywords := [] }

/-- A backend reply whose only distance is 1.5, beyond the 1.0 cap. -/
def farResp : ChromaResponse := { docs := ["beta"], dists := some [3/2] }

/-- Environment whose semantic backend answers with `farResp`. -/
def farEnv : AskEnv :=
  { chromaAvailable := true, chromaOutcome := ChromaOutcome.ok farResp, openaiAnswer := none }

/-- Inserting preserves the multiset of matches. -/
lemma insertDesc_perm (x : ScoredMatch) (l : List ScoredMatch) :
    (insertDesc x l).Perm (x :: l) := by
  induction l with
  | nil => simp [insertDesc]
  | cons y ys ih =>
    by_cases h : y.relevance > x.relevance
    · simp only [insertDesc, if_pos h]
      exact ((ih.cons y).trans (List.Perm.swap x y ys))
    · simp [insertDesc, if_neg h]

/-- Sorting preserves the multiset of matches. -/
lemma sortDesc_perm (l : List ScoredMatch) : (sortDesc l).Perm l := by
  induction l with
  | nil => simp [sortDesc]
  | cons x xs ih =>
    exact (insertDesc_perm x (sortDesc xs)).trans (ih.cons x)

/-- Inserting into a descending list keeps it descending. -/
lemma insertDesc_pairwise (x : ScoredMatch) (l : List ScoredMatch)
    (hl : l.Pairwise (fun a b => b.relevance ≤ a.relevance)) :
    (insertDesc x l).Pairwise (fun a b => b.relevance ≤ a.relevance) := by
  induction l with
  | nil => simp [insertDesc]
  | cons y ys ih =>
    rcases List.pairwise_cons.mp hl with ⟨hy, hys⟩
    by_cases h : y.relevance > x.relevance
    · simp only [insertDesc, if_pos h]
      refine List.pairwise_cons.mpr ⟨?_, ih hys⟩
      intro z hz
      rcases List.mem_cons.mp (((insertDesc_perm x ys).mem_iff).mp hz) with rfl | hz
      · exact le_of_lt h
      · exact hy z hz
    · simp only [insertDesc, if_neg h]
      push_neg at h
      refine List.pairwise_cons.mpr ⟨?_, hl⟩
      intro z hz
      rcases List.mem_cons.mp hz with rfl | hz
      · exact h
      · exact le_trans (hy z hz) h

/-- The embedded sort produces a descending list. -/
lemma sortDesc_pairwise (l : List ScoredMatch) :
    (sortDesc l).Pairwise (fun a b => b.relevance ≤ a.relevance) := by
  induction l with
  | nil => simp [sortDesc]
  | cons x xs ih => exact insertDesc_pairwise x (sortDesc xs) ih

/-- Stability of insertion, expressed per relevance value: the elements
of any fixed relevance keep their relative order, with the inserted
element first. -/
lemma insertDesc_filter (x : ScoredMatch) (l : List ScoredMatch) (v : ℚ) :
    (insertDesc x l).filter (fun m => decide (m.relevance = v))
      = if x.relevance = v then x :: l.filter (fun m => decide (m.relevance = v))
        else l.filter (fun m => decide (m.relevance = v)) := by
  induction l with
  | nil => by_cases hx : x.relevance = v <;> simp [insertDesc, hx]
  | cons y ys ih =>
    by_cases h : y.relevance > x.relevance
    · have hy : ¬ (y.relevance = v) ∨ ¬ (x.relevance = v) := by
        by_cases hx : x.relevance = v
        · exact Or.inl (by rw [hx] at h; exact fun hyv => absurd hyv (ne_of_gt h))
        · exact Or.inr hx
      simp only [insertDesc, if_pos h, List.filter_cons]
      by_cases hx : x.relevance = v
      · rcases hy with hy | hy
        · simp [ih, hx, hy]
        · exact absurd hx hy
      · by_cases hyv : y.relevance = v <;> simp [ih, hx, hyv]
    · simp only [insertDesc, if_neg h, List.filter_cons]
      by_cases hx : x.relevance = v <;> simp [hx]

/-- Stability of the embedded sort: for every relevance value, the
sorted list restricted to that value equals the input restricted to that
value, so ties keep their original corpus order. -/
lemma sortDesc_filter (l : List ScoredMatch) (v : ℚ) :
    (sortDesc l).filter (fun m => decide (m.relevance = v))
      = l.filter (fun m => decide (m.relevance = v)) := by
  induction l with
  | nil => rfl
  | cons x xs ih =>
    simp only [sortDesc, insertDesc_filter, List.filter_cons]
    by_cases hx : x.relevance = v <;> simp [hx, ih]

/-- The keyword loop of `simple_search` adds 0.3 per matching keyword. -/
lemma foldl_keyword (q : String) (l : List String) (a : ℚ) :
    l.foldl (fun acc kw => if pyIn (pyLower kw) q then acc + 3/10 else acc) a
      = a + 3/10 * ((l.filter (fun kw => pyIn (pyLower kw) q)).length : ℚ) := by
  induction l generalizing a with
  | nil => simp
  | cons kw rest ih =>
    simp only [List.foldl_cons, List.filter_cons]
    by_cases h : pyIn (pyLower kw) q
    · rw [if_pos h, if_pos h, ih]
      push_cast [List.length_cons]
      ring
    · rw [if_neg h, if_neg h, ih]

/-- Closed form of the per-rule accumulation. -/
lemma scoreRule_eq (question : String) (doc : RuleDocument) :
    scoreRule (pyLower question) doc
      = 3/10 * ((doc.keywords.filter (fun kw => pyIn (pyLower kw) (pyLower question))).length : ℚ)
        + (if (pySplit (pyLower doc.title)).any (fun w => pyIn w (pyLower question)) then (1 : ℚ)/2 else 0)
        + (if (pySplit (pyLower doc.content)).any (fun w => pyIn w (pyLower question)) then (1 : ℚ)/5 else 0) := by
  unfold scoreRule
  rw [foldl_keyword]
  by_cases h1 : (pySplit (pyLower doc.title)).any (fun w => pyIn w (pyLower question)) <;>
    by_cases h2 : (pySplit (pyLower doc.content)).any (fun w => pyIn w (pyLower question)) <;>
      simp [h1, h2]

/-- The accumulated score is never negative. -/
lemma scoreRule_nonneg (question : String) (doc : RuleDocument) :
    0 ≤ scoreRule (pyLower question) doc := by
  rw [scoreRule_eq]
  have h1 : (0:ℚ) ≤ 3/10 * ((doc.keywords.filter (fun kw => pyIn (pyLower kw) (pyLower question))).length : ℚ) := by
    positivity
  have h2 : (0:ℚ) ≤ (if (pySplit (pyLower doc.title)).any (fun w => pyIn w (pyLower question)) then (1 : ℚ)/2 else 0) := by
    split <;> norm_num
  have h3 : (0:ℚ) ≤ (if (pySplit (pyLower doc.content)).any (fun w => pyIn w (pyLower question)) then (1 : ℚ)/5 else 0) := by
    split <;> norm_num
  linarith

/-- The spec-side score is the clamped code-side accumulation. -/
lemma specScore_eq_clamp (question : String) (doc : RuleDocument) :
    specScore question doc = min (scoreRule (pyLower question) doc) 1 := by
  rw [specScore, scoreRule_eq]

/-- The code's inclusion test (pre-clamp score strictly positive)
coincides with the spec's exclusion test (clamped score nonzero). -/
lemma scoreRule_pos_iff (question : String) (doc : RuleDocument) :
    scoreRule (pyLower question) doc > 0 ↔ specScore question doc ≠ 0 := by
  rw [specScore_eq_clamp]
  constructor
  · intro h
    exact ne_of_gt (lt_min h one_pos)
  · intro h
    rcases lt_or_eq_of_le (scoreRule_nonneg question doc) with hpos | hzero
    · exact hpos
    · exact absurd (by rw [← hzero]; simp) h

/-- The candidate list of `simple_search` equals the spec formulation:
every document scored by `specScore`, zero scores dropped. -/
lemma lexResults_eq_spec (pdd : List RuleDocument) (question : String) :
    lexResults pdd question
      = pdd.filterMap (fun doc =>
          if specScore question doc = 0 then none
          else some { rule := doc, relevance := specScore question doc }) := by
  unfold lexResults
  refine congrFun (congrArg List.filterMap (funext fun doc => ?_)) pdd
  by_cases h : scoreRule (pyLower question) doc > 0
  · rw [if_pos h, if_neg (by simpa using (scoreRule_pos_iff question doc).mp h)]
    rw [specScore_eq_clamp]
  · rw [if_neg h]
    have : specScore question doc = 0 := by
      by_contra hne
      exact h ((scoreRule_pos_iff question doc).mpr hne)
    rw [if_pos this]

/-- Equation: empty trimmed question fails validation. -/
lemma ask_invalid_empty (pdd : List RuleDocument) (env : AskEnv) (st : CacheState)
    (raw : String) (h : pyStrip raw = "") :
    ask_question pdd env st raw
      = (Except.error (AskError.invalidInput "Question cannot be empty"), st) := by
  simp [ask_question, h]

/-- Equation: over-long trimmed question fails validation. -/
lemma ask_invalid_long (pdd : List RuleDocument) (env : AskEnv) (st : CacheState)
    (raw : String) (h : ¬ pyStrip raw = "") (h2 : 500 < (pyStrip raw).length) :
    ask_question pdd env st raw
      = (Except.error (AskError.invalidInput "Question too long (max 500 chars)"), st) := by
  simp [ask_question, h, h2]

/-- Equation: a cached key is served from the cache and bumps the hit
counter. -/
lemma ask_hit (pdd : List RuleDocument) (env : AskEnv) (st : CacheState)
    (raw : String) (a : Answer) (h : ¬ pyStrip raw = "")
    (h2 : ¬ 500 < (pyStrip raw).length)
    (h3 : cacheLookup st.answer_cache (get_cache_key (pyStrip raw)) = some a) :
    ask_question pdd env st raw
      = (Except.ok a, { st with cache_hits := st.cache_hits + 1 }) := by
  simp [ask_question, h, h2, h3]

/-- Equation: a cache miss with no matches stores and returns the
not-found answer. -/
lemma ask_miss_empty (pdd : List RuleDocument) (env : AskEnv) (st : CacheState)
    (raw : String) (h : ¬ pyStrip raw = "")
    (h2 : ¬ 500 < (pyStrip raw).length)
    (h3 : cacheLookup st.answer_cache (get_cache_key (pyStrip raw)) = none)
    (h4 : search_pdd pdd env.chromaAvailable env.chromaOutcome (pyStrip raw) 3 = []) :
    ask_question pdd env st raw
      = (Except.ok notFoundAnswer,
         { answer_cache := cacheInsert st.answer_cache (get_cache_key (pyStrip raw)) notFoundAnswer,
           cache_hits := st.cache_hits,
           cache_misses := st.cache_misses + 1 }) := by
  simp [ask_question, h, h2, h3, h4]

/-- Equation: a cache miss with matches composes, stores and returns the
composed answer. -/
lemma ask_miss_found (pdd : List RuleDocument) (env : AskEnv) (st : CacheState)
    (raw : String) (h : ¬ pyStrip raw = "")
    (h2 : ¬ 500 < (pyStrip raw).length)
    (h3 : cacheLookup st.answer_cache (get_cache_key (pyStrip raw)) = none)
    (h4 : (search_pdd pdd env.chromaAvailable env.chromaOutcome (pyStrip raw) 3).isEmpty = false) :
    ask_question pdd env st raw
      = (Except.ok (composeAnswer env.openaiAnswer
            (search_pdd pdd env.chromaAvailable env.chromaOutcome (pyStrip raw) 3)),
         { answer_cache := cacheInsert st.answer_cache (get_cache_key (pyStrip raw))
             (composeAnswer env.openaiAnswer
               (search_pdd pdd env.chromaAvailable env.chromaOutcome (pyStrip raw) 3)),
           cache_hits := st.cache_hits,
           cache_misses := st.cache_misses + 1 }) := by
  simp [ask_question, h, h2, h3, h4]

/-- Looking up a key right after inserting it yields the inserted value. -/
lemma cacheLookup_cacheInsert (cache : List (String × Answer)) (key : String) (v : Answer) :
    cacheLookup (cacheInsert cache key v) key = some v := by
  induction cache with
  | nil => simp [cacheInsert, cacheLookup]
  | cons p rest ih =>
    obtain ⟨k, w⟩ := p
    by_cases h : k = key
    · simp [cacheInsert, cacheLookup, h]
    · simp [cacheInsert, cacheLookup, h, ih]

/-- Every valid ask succeeds and leaves its own answer in the cache under
the normalized key. -/
lemma ask_stores (pdd : List RuleDocument) (env : AskEnv) (st : CacheState)
    (raw : String) (h : ¬ pyStrip raw = "") (h2 : ¬ 500 < (pyStrip raw).length) :
    ∃ a : Answer, (ask_question pdd env st raw).1 = Except.ok a ∧
      cacheLookup (ask_question pdd env st raw).2.answer_cache
        (get_cache_key (pyStrip raw)) = some a := by
  cases h3 : cacheLookup st.answer_cache (get_cache_key (pyStrip raw)) with
  | some a =>
    refine ⟨a, ?_, ?_⟩ <;> rw [ask_hit pdd env st raw a h h2 h3]
    exact h3
  | none =>
    cases h4 : (search_pdd pdd env.chromaAvailable env.chromaOutcome (pyStrip raw) 3).isEmpty with
    | true =>
      have h4' : search_pdd pdd env.chromaAvailable env.chromaOutcome (pyStrip raw) 3 = [] :=
        List.isEmpty_iff.mp h4
      refine ⟨notFoundAnswer, ?_, ?_⟩ <;> rw [ask_miss_empty pdd env st raw h h2 h3 h4']
      exact cacheLookup_cacheInsert _ _ _
    | false =>
      refine ⟨composeAnswer env.openaiAnswer
          (search_pdd pdd env.chromaAvailable env.chromaOutcome (pyStrip raw) 3), ?_, ?_⟩ <;>
        rw [ask_miss_found pdd env st raw h h2 h3 h4]
      exact cacheLookup_cacheInsert _ _ _

/-- When the semantic stage yields nothing, `search_pdd` is exactly
`simple_search`. -/
lemma search_pdd_fallback (pdd : List RuleDocument) (question : String)
    (n_results : Nat) (chromaAvailable : Bool) (outcome : ChromaOutcome)
    (h : chroma_search pdd outcome n_results = []) :
    search_pdd pdd chromaAvailable outcome question n_results
      = simple_search pdd question n_results := by
  cases chromaAvailable with
  | false => rfl
  | true => simp [search_pdd, h]

/-- With a falsy distances list every produced relevance is the default
`1 - min 1 1`. -/
lemma chromaLoop_none_rel (pdd : List RuleDocument) :
    ∀ (docs : List String) (i : Nat) (res : List ScoredMatch),
      chromaLoop pdd none docs i = some res →
      ∀ m ∈ res, m.relevance = 1 - min (1:ℚ) 1 := by
  intro docs
  induction docs with
  | nil =>
    intro i res h m hm
    rw [chromaLoop] at h
    injection h with h
    subst h
    cases hm
  | cons doc rest ih =>
    intro i res h m hm
    rw [chromaLoop] at h
    cases hfind : findRule pdd doc with
    | none =>
      rw [hfind] at h
      exact ih (i + 1) res h m hm
    | some rule =>
      rw [hfind] at h
      cases hrec : chromaLoop pdd none rest (i + 1) with
      | none => rw [hrec] at h; cases h
      | some tail =>
        rw [hrec] at h
        injection h with h
        subst h
        rcases List.mem_cons.mp hm with rfl | hm
        · rfl
        · exact ih (i + 1) tail hrec m hm

/-- With a present distances list every produced relevance is
`1 - min d 1` for some listed distance `d`. -/
lemma chromaLoop_some_rel (pdd : List RuleDocument) (l : List ℚ) :
    ∀ (docs : List String) (i : Nat) (res : List ScoredMatch),
      chromaLoop pdd (some l) docs i = some res →
      ∀ m ∈ res, ∃ d ∈ l, m.relevance = 1 - min d 1 := by
  intro docs
  induction docs with
  | nil =>
    intro i res h m hm
    rw [chromaLoop] at h
    injection h with h
    subst h
    cases hm
  | cons doc rest ih =>
    intro i res h m hm
    rw [chromaLoop] at h
    cases hfind : findRule pdd doc with
    | none =>
      rw [hfind] at h
      exact ih (i + 1) res h m hm
    | some rule =>
      rw [hfind] at h
      cases hget : l.get? i with
      | none => rw [hget] at h; cases h
      | some d =>
        rw [hget] at h
        cases hrec : chromaLoop pdd (some l) rest (i + 1) with
        | none => rw [hrec] at h; cases h
        | some tail =>
          rw [hrec] at h
          injection h with h
          subst h
          rcases List.mem_cons.mp hm with rfl | hm
          · exact ⟨d, List.get?_mem hget, rfl⟩
          · exact ih (i + 1) tail hrec m hm

/-- Claim C1: the Relevance Scorer computes exactly the specified score —
lowercase the question, 0.3 per keyword occurring as a substring, a flat
0.5 for a matching title token, a flat 0.2 for a matching content token,
clamped to at most 1.0 — and documents whose score is exactly 0 are
excluded from the ranking output: the candidate list of `simple_search`
equals the spec-side `specScore` filter, and every returned match
carries its document's nonzero `specScore`. -/
theorem simple_search_matches_spec (pdd : List RuleDocument) (question : String)
    (n_results : Nat) :
    lexResults pdd question
      = pdd.filterMap (fun doc =>
          if specScore question doc = 0 then none
          else some { rule := doc, relevance := specScore question doc }) ∧
    ∀ m ∈ simple_search pdd question n_results,
      m.relevance = specScore question m.rule ∧ m.relevance ≠ 0 := by
  refine ⟨lexResults_eq_spec pdd question, ?_⟩
  intro m hm
  have hmem : m ∈ lexResults pdd question := by
    have h1 : m ∈ sortDesc (lexResults pdd question) :=
      (List.take_sublist _ _).subset hm
    exact ((sortDesc_perm (lexResults pdd question)).mem_iff).mp h1
  rw [lexResults_eq_spec pdd question] at hmem
  rcases List.mem_filterMap.mp hmem with ⟨doc, _, heq⟩
  by_cases h0 : specScore question doc = 0
  · rw [if_pos h0] at heq
    exact absurd heq (by simp)
  · rw [if_neg h0] at heq
    injection heq with heq2
    subst heq2
    exact ⟨rfl, h0⟩

/-- Witness for C1: on a one-rule corpus whose keyword occurs in the
question, the match returned by `simple_search` carries exactly the
spec score, which is nonzero. -/
theorem simple_search_matches_spec_witness :
    (({ rule := wDoc, relevance := specScore "pro krug" wDoc } : ScoredMatch)
        ∈ simple_search [wDoc] "pro krug" 3) ∧
    ({ rule := wDoc, relevance := specScore "pro krug" wDoc } : ScoredMatch).relevance
        = specScore "pro krug"
            ({ rule := wDoc, relevance := specScore "pro krug" wDoc } : ScoredMatch).rule ∧
    ({ rule := wDoc, relevance := specScore "pro krug" wDoc } : ScoredMatch).relevance ≠ 0 := by
  have hk : pyIn (pyLower "krug") (pyLower "pro krug") = true := by decide
  have ht : (pySplit (pyLower "zzz")).any (fun w => pyIn w (pyLower "pro krug")) = false := by
    decide
  have hc : (pySplit (pyLower "yyy")).any (fun w => pyIn w (pyLower "pro krug")) = false := by
    decide
  have hval : specScore "pro krug" wDoc = min ((3:ℚ)/10 * 1 + 0 + 0) 1 := by
    simp [specScore, wDoc, List.filter_cons, hk, ht, hc]
  have hne : specScore "pro krug" wDoc ≠ 0 := by
    rw [hval]
    rw [min_eq_left (by norm_num)]
    norm_num
  have hlex : lexResults [wDoc] "pro krug"
      = [{ rule := wDoc, relevance := specScore "pro krug" wDoc }] := by
    rw [(simple_search_matches_spec [wDoc] "pro krug" 3).1]
    simp [List.filterMap_cons, List.filterMap_nil, hne]
  have hmem : ({ rule := wDoc, relevance := specScore "pro krug" wDoc } : ScoredMatch)
      ∈ simple_search [wDoc] "pro krug" 3 := by
    unfold simple_search
    rw [hlex]
    simp [sortDesc, insertDesc]
  exact ⟨hmem, (simple_search_matches_spec [wDoc] "pro krug" 3).2 _ hmem⟩

/-- Claim C2 (amended): whenever the results come from the lexical
fallback branch (semantic stage unavailable or empty), `search_pdd`
returns `simple_search`'s output, which has length at most `topN` and is
a prefix of a stable descending sort of the corpus-ordered candidates:
sorted by relevance descending with ties in original corpus order.  (The
semantic branch, by contrast, returns the backend's matches in backend
order, unsorted and untruncated — see the counterexample.) -/
theorem search_pdd_lexical_ranked (pdd : List RuleDocument) (question : String)
    (n_results : Nat) (chromaAvailable : Bool) (outcome : ChromaOutcome)
    (hfallback : chromaAvailable = false ∨ chroma_search pdd outcome n_results = []) :
    search_pdd pdd chromaAvailable outcome question n_results
      = simple_search pdd question n_results ∧
    (simple_search pdd question n_results).length ≤ n_results ∧
    (simple_search pdd question n_results).Pairwise
      (fun a b => b.relevance ≤ a.relevance) ∧
    ∃ s : List ScoredMatch,
      simple_search pdd question n_results = s.take n_results ∧
      s.Perm (lexResults pdd question) ∧
      s.Pairwise (fun a b => b.relevance ≤ a.relevance) ∧
      ∀ v : ℚ, s.filter (fun m => decide (m.relevance = v))
        = (lexResults pdd question).filter (fun m => decide (m.relevance = v)) := by
  refine ⟨?_, ?_, ?_,
    sortDesc (lexResults pdd question), rfl, sortDesc_perm _, sortDesc_pairwise _,
    fun v => sortDesc_filter _ v⟩
  · rcases hfallback with h | h
    · subst h
      rfl
    · exact search_pdd_fallback pdd question n_results chromaAvailable outcome h
  · rw [simple_search, List.length_take]
    exact inf_le_left
  · exact List.Pairwise.sublist (List.take_sublist _ _) (sortDesc_pairwise _)

/-- Witness for the amended C2: with no semantic backend, `search_pdd`
equals `simple_search`, whose output is short enough and descending. -/
theorem search_pdd_lexical_ranked_witness :
    (false = false ∨ chroma_search [cexRuleA] ChromaOutcome.unavailable 3 = []) ∧
    search_pdd [cexRuleA] false ChromaOutcome.unavailable "krug" 3
      = simple_search [cexRuleA] "krug" 3 ∧
    (simple_search [cexRuleA] "krug" 3).length ≤ 3 ∧
    (simple_search [cexRuleA] "krug" 3).Pairwise
      (fun a b => b.relevance ≤ a.relevance) :=
  ⟨Or.inl rfl,
   (search_pdd_lexical_ranked [cexRuleA] "krug" 3 false ChromaOutcome.unavailable
     (Or.inl rfl)).1,
   (search_pdd_lexical_ranked [cexRuleA] "krug" 3 false ChromaOutcome.unavailable
     (Or.inl rfl)).2.1,
   (search_pdd_lexical_ranked [cexRuleA] "krug" 3 false ChromaOutcome.unavailable
     (Or.inl rfl)).2.2.1⟩

/-- Counterexample to C2 as stated: a semantic reply listing the distant
document first (distances 0.9 then 0.1) makes `search_pdd` return
relevances 0.1 then 0.9 — ascending, not descending — and with
`topN = 1` it returns 2 matches, exceeding the bound. -/
theorem search_pdd_semantic_unranked_cex :
    (search_pdd [cexRuleA, cexRuleB] true (ChromaOutcome.ok cexResp) "q" 1).map
        (fun m => m.relevance) = [1 - min ((9:ℚ)/10) 1, 1 - min ((1:ℚ)/10) 1] ∧
    (1 - min ((9:ℚ)/10) 1) < (1 - min ((1:ℚ)/10) 1) ∧
    ¬ ((search_pdd [cexRuleA, cexRuleB] true (ChromaOutcome.ok cexResp) "q" 1).length ≤ 1) := by
  refine ⟨rfl, ?_, by decide⟩
  rw [min_eq_left (by norm_num), min_eq_left (by norm_num)]
  norm_num

/-- Claim C3: retrieval is total over semantic-backend outcomes — when
the semantic retriever is absent (`unavailable`) or raised
(`backendError`) it contributes nothing, and whenever the semantic stage
yields no results `search_pdd` returns exactly `simple_search` on the
same corpus, question and `topN`; in the embedding every backend failure
is a value, so no exception propagates. -/
theorem search_pdd_fallback_total (pdd : List RuleDocument) (question : String)
    (n_results : Nat) (chromaAvailable : Bool) (outcome : ChromaOutcome) :
    chroma_search pdd ChromaOutcome.unavailable n_results = [] ∧
    chroma_search pdd ChromaOutcome.backendError n_results = [] ∧
    (chroma_search pdd outcome n_results = [] →
      search_pdd pdd chromaAvailable outcome question n_results
        = simple_search pdd question n_results) := by
  exact ⟨rfl, rfl, fun h =>
    search_pdd_fallback pdd question n_results chromaAvailable outcome h⟩

/-- Witness for C3: with an erroring backend, retrieval equals the
lexical scorer directly. -/
theorem search_pdd_fallback_total_witness :
    chroma_search [cexRuleA] ChromaOutcome.backendError 3 = [] ∧
    search_pdd [cexRuleA] true ChromaOutcome.backendError "krug" 3
      = simple_search [cexRuleA] "krug" 3 :=
  ⟨rfl,
   (search_pdd_fallback_total [cexRuleA] "krug" 3 true ChromaOutcome.backendError).2.2 rfl⟩

/-- Claim C4: `ask_question` fails with `InvalidInput` (HTTP 400) exactly
when the trimmed question is empty or longer than 500 characters, and in
that case the module state — cache and both counters — is returned
unchanged, so nothing was cached and no retrieval work is observable. -/
theorem ask_invalid_input_iff (pdd : List RuleDocument) (env : AskEnv) (st : CacheState)
    (raw : String) :
    ((pyStrip raw = "" ∨ 500 < (pyStrip raw).length) →
      ((ask_question pdd env st raw).1
          = Except.error (AskError.invalidInput "Question cannot be empty") ∨
        (ask_question pdd env st raw).1
          = Except.error (AskError.invalidInput "Question too long (max 500 chars)")) ∧
      (ask_question pdd env st raw).2 = st) ∧
    (¬ (pyStrip raw = "" ∨ 500 < (pyStrip raw).length) →
      ∃ a : Answer, (ask_question pdd env st raw).1 = Except.ok a) := by
  constructor
  · intro hcond
    by_cases he : pyStrip raw = ""
    · rw [ask_invalid_empty pdd env st raw he]
      exact ⟨Or.inl rfl, rfl⟩
    · have hl : 500 < (pyStrip raw).length := hcond.resolve_left he
      rw [ask_invalid_long pdd env st raw he hl]
      exact ⟨Or.inr rfl, rfl⟩
  · intro hcond
    push_neg at hcond
    obtain ⟨a, ha, _⟩ := ask_stores pdd env st raw hcond.1 (not_lt.mpr hcond.2)
    exact ⟨a, ha⟩

/-- Witness for C4: the empty question is rejected with `InvalidInput`
and the state is untouched. -/
theorem ask_invalid_input_iff_witness :
    (pyStrip "" = "" ∨ 500 < (pyStrip "").length) ∧
    ((ask_question [] noChromaEnv emptyState "").1
        = Except.error (AskError.invalidInput "Question cannot be empty") ∨
      (ask_question [] noChromaEnv emptyState "").1
        = Except.error (AskError.invalidInput "Question too long (max 500 chars)")) ∧
    (ask_question [] noChromaEnv emptyState "").2 = emptyState :=
  ⟨Or.inl rfl, (ask_invalid_input_iff [] noChromaEnv emptyState "").1 (Or.inl rfl)⟩

/-- Claim C5: the cache key is a hash of the trimmed lowercased question,
so two valid questions that agree after trimming and lowercasing produce
the same key, and the second `ask_question` — even under a different
backend environment — returns the identical cached `Answer` while
bumping only the hit counter by exactly 1. -/
theorem ask_cache_key_normalized (pdd : List RuleDocument) (env env2 : AskEnv)
    (st : CacheState) (raw1 raw2 : String)
    (h1 : ¬ pyStrip raw1 = "") (h2 : ¬ 500 < (pyStrip raw1).length)
    (h3 : ¬ pyStrip raw2 = "") (h4 : ¬ 500 < (pyStrip raw2).length)
    (hnorm : pyLower (pyStrip raw1) = pyLower (pyStrip raw2)) :
    get_cache_key (pyStrip raw1) = get_cache_key (pyStrip raw2) ∧
    ∃ a : Answer,
      (ask_question pdd env st raw1).1 = Except.ok a ∧
      ask_question pdd env2 (ask_question pdd env st raw1).2 raw2
        = (Except.ok a,
           { (ask_question pdd env st raw1).2 with
             cache_hits := (ask_question pdd env st raw1).2.cache_hits + 1 }) := by
  have hkey : get_cache_key (pyStrip raw1) = get_cache_key (pyStrip raw2) := by
    unfold get_cache_key md5Hex
    rw [hnorm]
  refine ⟨hkey, ?_⟩
  obtain ⟨a, ha, hstore⟩ := ask_stores pdd env st raw1 h1 h2
  refine ⟨a, ha, ?_⟩
  exact ask_hit pdd env2 _ raw2 a h3 h4 (by rw [← hkey]; exact hstore)

/-- Witness for C5: "Hello" and "  HELLO  " differ only by case and
surrounding whitespace; asking the second right after the first is a
cache hit returning the first answer. -/
theorem ask_cache_key_normalized_witness :
    pyLower (pyStrip "Hello") = pyLower (pyStrip "  HELLO  ") ∧
    get_cache_key (pyStrip "Hello") = get_cache_key (pyStrip "  HELLO  ") ∧
    ∃ a : Answer,
      (ask_question [] noChromaEnv emptyState "Hello").1 = Except.ok a ∧
      ask_question [] noChromaEnv (ask_question [] noChromaEnv emptyState "Hello").2 "  HELLO  "
        = (Except.ok a,
           { (ask_question [] noChromaEnv emptyState "Hello").2 with
             cache_hits := (ask_question [] noChromaEnv emptyState "Hello").2.cache_hits + 1 }) :=
  ⟨by decide,
   ask_cache_key_normalized [] noChromaEnv noChromaEnv emptyState "Hello" "  HELLO  "
     (by decide) (by decide) (by decide) (by decide) (by decide)⟩

/-- Claim C6: a valid uncached question whose retrieval yields no matches
returns the fixed not-found answer — the fixed text, empty sources,
confidence exactly 0 — and that exact result is stored in the cache
under the question's normalized key. -/
theorem ask_no_matches_not_found (pdd : List RuleDocument) (env : AskEnv) (st : CacheState)
    (raw : String) (h : ¬ pyStrip raw = "") (h2 : ¬ 500 < (pyStrip raw).length)
    (h3 : cacheLookup st.answer_cache (get_cache_key (pyStrip raw)) = none)
    (h4 : search_pdd pdd env.chromaAvailable env.chromaOutcome (pyStrip raw) 3 = []) :
    (ask_question pdd env st raw).1 = Except.ok notFoundAnswer ∧
    notFoundAnswer.answer = notFoundText ∧
    notFoundAnswer.sources = [] ∧
    notFoundAnswer.confidence = 0 ∧
    cacheLookup (ask_question pdd env st raw).2.answer_cache (get_cache_key (pyStrip raw))
      = some notFoundAnswer := by
  rw [ask_miss_empty pdd env st raw h h2 h3 h4]
  exact ⟨rfl, rfl, rfl, rfl, cacheLookup_cacheInsert _ _ _⟩

/-- Witness for C6: on an empty corpus with no semantic backend, "hi"
yields the cached not-found answer. -/
theorem ask_no_matches_not_found_witness :
    search_pdd [] noChromaEnv.chromaAvailable noChromaEnv.chromaOutcome (pyStrip "hi") 3 = [] ∧
    (ask_question [] noChromaEnv emptyState "hi").1 = Except.ok notFoundAnswer ∧
    cacheLookup (ask_question [] noChromaEnv emptyState "hi").2.answer_cache
      (get_cache_key (pyStrip "hi")) = some notFoundAnswer :=
  ⟨rfl,
   (ask_no_matches_not_found [] noChromaEnv emptyState "hi" (by decide) (by decide) rfl rfl).1,
   (ask_no_matches_not_found [] noChromaEnv emptyState "hi" (by decide) (by decide) rfl rfl).2.2.2.2⟩

/-- Claim C7: for every non-empty match list with nonnegative relevances
(which both retrieval branches produce), the composed confidence equals
the average relevance clamped to [0,1], and it is identical whether the
generative step produced an answer or failed. -/
theorem compose_confidence_avg (ms : List ScoredMatch) (g1 g2 : Option String)
    (hne : ms ≠ [])
    (hnn : ∀ m ∈ ms, 0 ≤ m.relevance) :
    (composeAnswer g1 ms).confidence
      = min (max ((ms.map (fun m => m.relevance)).sum / (ms.length : ℚ)) 0) 1 ∧
    (composeAnswer g1 ms).confidence = (composeAnswer g2 ms).confidence := by
  have hlen : (0:ℚ) < (ms.length : ℚ) := by
    exact_mod_cast List.length_pos.mpr hne
  have hsum : 0 ≤ (ms.map (fun m => m.relevance)).sum := by
    apply List.sum_nonneg
    intro x hx
    rcases List.mem_map.mp hx with ⟨m, hm, rfl⟩
    exact hnn m hm
  have hdiv : 0 ≤ (ms.map (fun m => m.relevance)).sum / (ms.length : ℚ) :=
    div_nonneg hsum (le_of_lt hlen)
  have hie : ms.isEmpty = false := by
    cases ms with
    | nil => exact absurd rfl hne
    | cons a l => rfl
  have hconf : (composeAnswer g1 ms).confidence
      = if ms.isEmpty then (0:ℚ)
        else min ((ms.map (fun m => m.relevance)).sum / (ms.length : ℚ)) 1 := rfl
  constructor
  · rw [hconf, hie, max_eq_left hdiv]
    simp
  · rfl

/-- Witness for C7: a single match of relevance 0.5 gives the same
clamped-average confidence with and without a generative answer. -/
theorem compose_confidence_avg_witness :
    (([{ rule := cexRuleA, relevance := 1/2 }] : List ScoredMatch) ≠ []) ∧
    (∀ m ∈ ([{ rule := cexRuleA, relevance := 1/2 }] : List ScoredMatch), 0 ≤ m.relevance) ∧
    (composeAnswer (some "gen") [{ rule := cexRuleA, relevance := 1/2 }]).confidence
      = min (max ((([{ rule := cexRuleA, relevance := 1/2 }] : List ScoredMatch).map
            (fun m => m.relevance)).sum
          / (([{ rule := cexRuleA, relevance := 1/2 }] : List ScoredMatch).length : ℚ)) 0) 1 ∧
    (composeAnswer (some "gen") [{ rule := cexRuleA, relevance := 1/2 }]).confidence
      = (composeAnswer none [{ rule := cexRuleA, relevance := 1/2 }]).confidence :=
  ⟨by simp,
   by
     intro m hm
     rw [List.mem_singleton] at hm
     subst hm
     norm_num,
   compose_confidence_avg [{ rule := cexRuleA, relevance := 1/2 }] (some "gen") none
     (by simp)
     (by
       intro m hm
       rw [List.mem_singleton] at hm
       subst hm
       norm_num)⟩

/-- Claim C8 (amended): every semantic match has relevance
`1 - min(distance, 1.0)` for its backend distance (default 1.0 when
distances are missing); this is always ≥ 0, and it lies in [0,1] whenever
the backend distances are nonnegative — but the code applies no upper
clamp, so a negative distance yields a relevance above 1 (see the
counterexample). -/
theorem chroma_relevance_formula (pdd : List RuleDocument) (outcome : ChromaOutcome)
    (n_results : Nat) :
    (∀ m ∈ chroma_search pdd outcome n_results, ∃ d : ℚ, m.relevance = 1 - min d 1) ∧
    (∀ m ∈ chroma_search pdd outcome n_results, 0 ≤ m.relevance) ∧
    (distsNonneg outcome →
      ∀ m ∈ chroma_search pdd outcome n_results, 0 ≤ m.relevance ∧ m.relevance ≤ 1) := by
  have hformula : ∀ m ∈ chroma_search pdd outcome n_results,
      ∃ d : ℚ, m.relevance = 1 - min d 1 ∧ (distsNonneg outcome → 0 ≤ d) := by
    intro m hm
    cases outcome with
    | unavailable => cases hm
    | backendError => cases hm
    | ok resp =>
      replace hm : m ∈ (chromaLoop pdd resp.dists resp.docs 0).getD [] := hm
      cases hloop : chromaLoop pdd resp.dists resp.docs 0 with
      | none => rw [hloop] at hm; cases hm
      | some res =>
        rw [hloop] at hm
        simp only [Option.getD_some] at hm
        cases hdists : resp.dists with
        | none =>
          rw [hdists] at hloop
          have hrel := chromaLoop_none_rel pdd resp.docs 0 res hloop m hm
          exact ⟨1, hrel, fun _ => by norm_num⟩
        | some l =>
          rw [hdists] at hloop
          obtain ⟨d, hd, hrel⟩ := chromaLoop_some_rel pdd l resp.docs 0 res hloop m hm
          refine ⟨d, hrel, fun hdn => ?_⟩
          have hdn' : ∀ x ∈ l, (0:ℚ) ≤ x := by
            simp only [distsNonneg, hdists] at hdn
            exact hdn
          exact hdn' d hd
  refine ⟨fun m hm => ⟨(hformula m hm).choose, (hformula m hm).choose_spec.1⟩,
    fun m hm => ?_, fun hdn m hm => ?_⟩
  · obtain ⟨d, hrel, _⟩ := hformula m hm
    rw [hrel]
    have hle : min d 1 ≤ 1 := min_le_right d 1
    linarith
  · obtain ⟨d, hrel, hpos⟩ := hformula m hm
    have hd : 0 ≤ d := hpos hdn
    constructor
    · rw [hrel]
      have hle : min d 1 ≤ 1 := min_le_right d 1
      linarith
    · rw [hrel]
      have hge : 0 ≤ min d 1 := le_min hd (by norm_num)
      linarith

/-- Witness for the amended C8: a nonnegative backend distance of 0.5
produces relevances inside [0,1]. -/
theorem chroma_relevance_formula_witness :
    distsNonneg (ChromaOutcome.ok halfResp) ∧
    ∀ m ∈ chroma_search [negRule] (ChromaOutcome.ok halfResp) 3,
      0 ≤ m.relevance ∧ m.relevance ≤ 1 :=
  ⟨by
     show ∀ d ∈ [(1:ℚ)/2], 0 ≤ d
     intro d hd
     rw [List.mem_singleton] at hd
     subst hd
     norm_num,
   (chroma_relevance_formula [negRule] (ChromaOutcome.ok halfResp) 3).2.2
     (by
       show ∀ d ∈ [(1:ℚ)/2], 0 ≤ d
       intro d hd
       rw [List.mem_singleton] at hd
       subst hd
       norm_num)⟩

/-- Counterexample to C8 as stated: for backend distance −1 the stored
relevance is `1 − min(−1, 1.0) = 2`, which exceeds 1 — the code does not
clamp the semantic relevance into [0,1]. -/
theorem chroma_relevance_cex :
    (chroma_search [negRule] (ChromaOutcome.ok negResp) 3).map (fun m => m.relevance)
      = [1 - min (-1 : ℚ) 1] ∧
    ¬ (1 - min (-1 : ℚ) 1 ≤ 1) := by
  constructor
  · rfl
  · rw [min_eq_left (by norm_num)]
    norm_num

/-- Claim C9: the 500-character limit applies to the trimmed question —
any raw string whose trimmed form is non-empty and at most 500
characters is accepted (no `InvalidInput`), and on a cache miss the
pipeline proceeds to retrieval, observable as the miss counter
incrementing; no bound on the raw string's own length is required. -/
theorem ask_limit_applied_after_trim (pdd : List RuleDocument) (env : AskEnv)
    (st : CacheState) (raw : String)
    (h : ¬ pyStrip raw = "") (h2 : (pyStrip raw).length ≤ 500) :
    (∃ a : Answer, (ask_question pdd env st raw).1 = Except.ok a) ∧
    (cacheLookup st.answer_cache (get_cache_key (pyStrip raw)) = none →
      (ask_question pdd env st raw).2.cache_misses = st.cache_misses + 1) := by
  have h2' : ¬ 500 < (pyStrip raw).length := not_lt.mpr h2
  constructor
  · obtain ⟨a, ha, _⟩ := ask_stores pdd env st raw h h2'
    exact ⟨a, ha⟩
  · intro h3
    cases h4 : (search_pdd pdd env.chromaAvailable env.chromaOutcome (pyStrip raw) 3).isEmpty with
    | true =>
      rw [ask_miss_empty pdd env st raw h h2' h3 (List.isEmpty_iff.mp h4)]
    | false =>
      rw [ask_miss_found pdd env st raw h h2' h3 h4]

set_option maxRecDepth 4000 in
/-- Witness for C9: a 504-character raw question whose trimmed form is
the 2-character "hi" is accepted and reaches retrieval. -/
theorem ask_limit_applied_after_trim_witness :
    500 < longRaw.length ∧
    ¬ pyStrip longRaw = "" ∧
    (pyStrip longRaw).length ≤ 500 ∧
    (∃ a : Answer, (ask_question [] noChromaEnv emptyState longRaw).1 = Except.ok a) ∧
    (ask_question [] noChromaEnv emptyState longRaw).2.cache_misses
      = emptyState.cache_misses + 1 :=
  ⟨by decide, by decide, by decide,
   (ask_limit_applied_after_trim [] noChromaEnv emptyState longRaw (by decide) (by decide)).1,
   (ask_limit_applied_after_trim [] noChromaEnv emptyState longRaw (by decide) (by decide)).2 rfl⟩

/-- Claim C10: the semantic branch does not drop zero-relevance matches —
a backend distance of 1.5 (at least the 1.0 cap) yields a stored
relevance of exactly 0, `search_pdd` returns it, and `ask_question`
then produces an `Answer` with one source and confidence exactly 0. -/
theorem semantic_zero_relevance_included :
    search_pdd [farRule] true (ChromaOutcome.ok farResp) "q" 3
      = [{ rule := farRule, relevance := 1 - min ((3:ℚ)/2) 1 }] ∧
    1 - min ((3:ℚ)/2) 1 = 0 ∧
    (ask_question [farRule] farEnv emptyState "q").1
      = Except.ok (composeAnswer none [{ rule := farRule, relevance := 1 - min ((3:ℚ)/2) 1 }]) ∧
    (composeAnswer none [{ rule := farRule, relevance := 1 - min ((3:ℚ)/2) 1 }]).sources.length
      = 1 ∧
    (composeAnswer none [{ rule := farRule, relevance := 1 - min ((3:ℚ)/2) 1 }]).confidence
      = 0 := by
  have hzero : 1 - min ((3:ℚ)/2) 1 = 0 := by
    rw [min_eq_right (by norm_num)]
    ring
  refine ⟨rfl, hzero, rfl, rfl, ?_⟩
  have hconf : (composeAnswer none [{ rule := farRule, relevance := 1 - min ((3:ℚ)/2) 1 }]).confidence
      = min (((1 - min ((3:ℚ)/2) 1) + 0) / ((1:ℕ) : ℚ)) 1 := rfl
  rw [hconf, hzero]
  norm_num
